import Mathlib

/-!
Verification development for a disk-resident extendible hash table
(header page, directory page, bucket pages, page guards, and the
orchestrating hash-table class).

The C++ sources are shallowly embedded below:
machine integers become Nat (page ids become Int so that the sentinel -1
keeps its literal form), fixed bit-packed bitmaps become per-slot
booleans, raw page arrays become total functions or lists, code that can
throw returns Except, and the buffer pool becomes association lists from
page id to page content.  A thrown C++ exception propagates out of the
public operations, so the error value of each state-passing operation
carries the state as mutated up to the throw point.
-/

namespace Bustub

/-- Association-list lookup over page ids (the buffer pool's page table). -/
def assocGet {α : Type} : List (Int × α) → Int → Option α
  | [], _ => none
  | (k, a) :: rest, key => if k = key then some a else assocGet rest key

/-- Association-list in-place update: replaces the first binding of the key,
leaving the list unchanged when the key is absent (writes through a fetched
page pointer always target an existing page). -/
def assocSet {α : Type} : List (Int × α) → Int → α → List (Int × α)
  | [], _, _ => []
  | (k, a) :: rest, key, v =>
    if k = key then (key, v) :: rest else (k, a) :: assocSet rest key v

/-! ## Header page

Embeds src/storage/page/extendible_htable_header_page.cpp.
The field max_depth mirrors max_depth_; the physical array
directory_page_ids_ (size 2 ^ HTABLE_HEADER_MAX_DEPTH) is modelled as a
total function from index to page id, with -1 the "unused" sentinel. -/

structure ExtendibleHTableHeaderPage where
  max_depth : Nat
  directory_page_ids : Nat → Int

namespace ExtendibleHTableHeaderPage

/-- Init(max_depth): sets max_depth_ and memsets directory_page_ids_ to -1. -/
def Init (max_depth : Nat) : ExtendibleHTableHeaderPage :=
  { max_depth := max_depth, directory_page_ids := fun _ => -1 }

/-- MaxSize(): 1 << max_depth_. -/
def MaxSize (h : ExtendibleHTableHeaderPage) : Nat := 2 ^ h.max_depth

/-- HashToDirectoryIndex(hash): the source computes
hash >> (sizeof(hash)*8 - max_depth_) on uint32_t operands.  When
max_depth_ = 0 the shift count is 32, and when max_depth_ > 32 the
unsigned subtraction wraps to a count of at least 32; in both cases a
shift by at least the bit width of the operand is undefined behavior in
C++ (there is no special case in the source), modelled here as none. -/
def HashToDirectoryIndex (h : ExtendibleHTableHeaderPage) (hash : Nat) : Option Nat :=
  if 1 ≤ h.max_depth ∧ h.max_depth ≤ 32 then
    some (hash >>> (32 - h.max_depth))
  else
    none

/-- GetDirectoryPageId(idx): throws std::out_of_range if idx ≥ 1 << max_depth_. -/
def GetDirectoryPageId (h : ExtendibleHTableHeaderPage) (directory_idx : Nat) :
    Except String Int :=
  if directory_idx ≥ 2 ^ h.max_depth then
    .error "Directory index out of range"
  else
    .ok (h.directory_page_ids directory_idx)

/-- SetDirectoryPageId(idx, id): bounds-checked write of a directory page id. -/
def SetDirectoryPageId (h : ExtendibleHTableHeaderPage) (directory_idx : Nat)
    (directory_page_id : Int) : Except String ExtendibleHTableHeaderPage :=
  if directory_idx ≥ 2 ^ h.max_depth then
    .error "Directory index out of range"
  else
    .ok { h with directory_page_ids :=
            fun i => if i = directory_idx then directory_page_id else h.directory_page_ids i }

end ExtendibleHTableHeaderPage

/-! ## Directory page

Embeds src/storage/page/extendible_htable_directory_page.cpp.  The
physical arrays local_depths_ (uint8) and bucket_page_ids_ are modelled
as total functions; Init zeroes them.  Depth values in every state
considered here stay far below 256, so uint8 wrap-around never matters. -/

structure ExtendibleHTableDirectoryPage where
  max_depth : Nat
  global_depth : Nat
  local_depths : Nat → Nat
  bucket_page_ids : Nat → Int

namespace ExtendibleHTableDirectoryPage

/-- Init(max_depth): global_depth_ = 0, both arrays memset to zero. -/
def Init (max_depth : Nat) : ExtendibleHTableDirectoryPage :=
  { max_depth := max_depth, global_depth := 0,
    local_depths := fun _ => 0, bucket_page_ids := fun _ => 0 }

/-- Size(): 1 << global_depth_. -/
def Size (d : ExtendibleHTableDirectoryPage) : Nat := 2 ^ d.global_depth

/-- GetGlobalDepth(). -/
def GetGlobalDepth (d : ExtendibleHTableDirectoryPage) : Nat := d.global_depth

/-- GetGlobalDepthMask(): (1 << global_depth_) - 1. -/
def GetGlobalDepthMask (d : ExtendibleHTableDirectoryPage) : Nat :=
  2 ^ d.global_depth - 1

/-- HashToBucketIndex(hash): hash & GetGlobalDepthMask(). -/
def HashToBucketIndex (d : ExtendibleHTableDirectoryPage) (hash : Nat) : Nat :=
  hash &&& d.GetGlobalDepthMask

/-- GetSplitImageIndex(idx): bucket_idx ^ (1u << local_depths_[bucket_idx]).
The shift is modelled mathematically; every state appearing in the claims
keeps local depths far below 32, the regime where the C++ shift is defined. -/
def GetSplitImageIndex (d : ExtendibleHTableDirectoryPage) (bucket_idx : Nat) : Nat :=
  bucket_idx ^^^ 2 ^ d.local_depths bucket_idx

/-- GetBucketPageId(idx): throws std::out_of_range if idx ≥ Size(). -/
def GetBucketPageId (d : ExtendibleHTableDirectoryPage) (bucket_idx : Nat) :
    Except String Int :=
  if bucket_idx ≥ d.Size then
    .error "Bucket index out of range"
  else
    .ok (d.bucket_page_ids bucket_idx)

/-- SetBucketPageId(idx, id): bounds-checked against Size(); the throw
happens before any mutation. -/
def SetBucketPageId (d : ExtendibleHTableDirectoryPage) (bucket_idx : Nat)
    (bucket_page_id : Int) : Except String ExtendibleHTableDirectoryPage :=
  if bucket_idx ≥ d.Size then
    .error "Bucket index out of range"
  else
    .ok { d with bucket_page_ids :=
            fun i => if i = bucket_idx then bucket_page_id else d.bucket_page_ids i }

/-- GetLocalDepth(idx): bounds-checked read of local_depths_. -/
def GetLocalDepth (d : ExtendibleHTableDirectoryPage) (bucket_idx : Nat) :
    Except String Nat :=
  if bucket_idx ≥ d.Size then
    .error "Bucket index out of range"
  else
    .ok (d.local_depths bucket_idx)

/-- SetLocalDepth(idx, depth): bounds-checked write of local_depths_. -/
def SetLocalDepth (d : ExtendibleHTableDirectoryPage) (bucket_idx : Nat)
    (local_depth : Nat) : Except String ExtendibleHTableDirectoryPage :=
  if bucket_idx ≥ d.Size then
    .error "Bucket index out of range"
  else
    .ok { d with local_depths :=
            fun i => if i = bucket_idx then local_depth else d.local_depths i }

/-- IncrLocalDepth(idx): bounds-checked increment of local_depths_[idx]. -/
def IncrLocalDepth (d : ExtendibleHTableDirectoryPage) (bucket_idx : Nat) :
    Except String ExtendibleHTableDirectoryPage :=
  if bucket_idx ≥ d.Size then
    .error "Bucket index out of range"
  else
    .ok { d with local_depths :=
            fun i => if i = bucket_idx then d.local_depths i + 1 else d.local_depths i }

/-- IncrGlobalDepth(): increments global_depth_ (no max_depth_ check in the
source), then copies bucket_page_ids_[i] and local_depths_[i] into slot
i + 2 ^ old_depth for every i below 2 ^ old_depth. -/
def IncrGlobalDepth (d : ExtendibleHTableDirectoryPage) : ExtendibleHTableDirectoryPage :=
  let g := d.global_depth
  { d with
    global_depth := g + 1,
    bucket_page_ids := fun i =>
      if 2 ^ g ≤ i ∧ i < 2 ^ (g + 1) then d.bucket_page_ids (i - 2 ^ g)
      else d.bucket_page_ids i,
    local_depths := fun i =>
      if 2 ^ g ≤ i ∧ i < 2 ^ (g + 1) then d.local_depths (i - 2 ^ g)
      else d.local_depths i }

/-- DecrGlobalDepth(): the source body is only
throw NotImplementedException(...). -/
def DecrGlobalDepth (_d : ExtendibleHTableDirectoryPage) :
    Except String ExtendibleHTableDirectoryPage :=
  .error "ExtendibleHTableDirectoryPage is not implemented"

/-- CanShrink(): global_depth_ > 0 and every local depth below Size() is
strictly below global_depth_. -/
def CanShrink (d : ExtendibleHTableDirectoryPage) : Bool :=
  decide (0 < d.global_depth) &&
    decide (∀ i < d.Size, d.local_depths i < d.global_depth)

end ExtendibleHTableDirectoryPage

/-! ## Bucket slot

Both bucket page classes store an array of (key, value) pairs together
with per-slot occupied and readable bits (the C++ packs the bits eight to
a byte in occupied_ and readable_; the packing is pure storage and is
modelled as one boolean per slot).  Keys and values are embedded at the
int/int template instantiation, so both are Nat here. -/

structure Slot where
  key : Nat
  value : Nat
  occupied : Bool
  readable : Bool
deriving DecidableEq, Repr

/-! ## HashTableBucketPage

Embeds src/storage/page/hash_table_bucket_page.cpp.  The C++ loops run
over the compile-time BUCKET_ARRAY_SIZE; here the slot array is a list
whose length plays that role. -/

structure HashTableBucketPage where
  slots : List Slot
deriving DecidableEq, Repr

namespace HashTableBucketPage

/-- Loop body of GetValue: collects ValueAt(i) for every slot that is
occupied, readable and key-equal; the function returns true when at least
one match was pushed. -/
def GetValue (b : HashTableBucketPage) (key : Nat) : Bool × List Nat :=
  let vals := (b.slots.filter
    (fun s => s.occupied && s.readable && s.key == key)).map (fun s => s.value)
  (!vals.isEmpty, vals)

/-- Loop body of Insert over the slot array: a slot that is occupied and
readable and holds the identical (key, value) pair makes the whole call
return false; otherwise the first slot that is not occupied receives the
pair and is marked occupied and readable; a slot that is occupied but not
readable is skipped.  Returning false (none) when the scan runs off the
end models the bucket-full case. -/
def InsertAux (key value : Nat) : List Slot → Option (List Slot)
  | [] => none
  | s :: rest =>
    if s.occupied && s.readable then
      if s.key == key && s.value == value then
        none
      else
        (InsertAux key value rest).map (s :: ·)
    else if !s.occupied then
      some ({ key := key, value := value, occupied := true, readable := true } :: rest)
    else
      (InsertAux key value rest).map (s :: ·)

/-- Insert(key, value, cmp): none models the boolean result false (the
bucket is left unchanged), some the mutated slot array with result true. -/
def Insert (b : HashTableBucketPage) (key value : Nat) : Option HashTableBucketPage :=
  (InsertAux key value b.slots).map (fun l => { slots := l })

/-- Loop body of Remove: the first occupied, readable slot holding the
matching (key, value) pair is marked both unreadable and unoccupied
(SetUnReadable then SetUnOccupied in the source); the pair stays in
array_. -/
def RemoveAux (key value : Nat) : List Slot → Option (List Slot)
  | [] => none
  | s :: rest =>
    if s.occupied && s.readable && s.key == key && s.value == value then
      some ({ s with occupied := false, readable := false } :: rest)
    else
      (RemoveAux key value rest).map (s :: ·)

/-- Remove(key, value, cmp): none models result false (no change). -/
def Remove (b : HashTableBucketPage) (key value : Nat) : Option HashTableBucketPage :=
  (RemoveAux key value b.slots).map (fun l => { slots := l })

/-- RemoveAt(bucket_idx): clears only the readable bit, and only when the
slot was occupied and readable. -/
def RemoveAt (b : HashTableBucketPage) (bucket_idx : Nat) : HashTableBucketPage :=
  { slots := b.slots.mapIdx (fun i s =>
      if i = bucket_idx ∧ s.occupied ∧ s.readable then { s with readable := false } else s) }

/-- IsFull(): every slot is occupied. -/
def IsFull (b : HashTableBucketPage) : Bool :=
  b.slots.all (fun s => s.occupied)

/-- IsEmpty(): no slot is occupied. -/
def IsEmpty (b : HashTableBucketPage) : Bool :=
  b.slots.all (fun s => !s.occupied)

/-- NumReadable(): number of readable slots. -/
def NumReadable (b : HashTableBucketPage) : Nat :=
  (b.slots.filter (fun s => s.readable)).length

/-- Number of occupied, readable slots holding exactly the pair
(key, value); used to state occurrence counts. -/
def CountReadablePairs (b : HashTableBucketPage) (key value : Nat) : Nat :=
  (b.slots.filter
    (fun s => s.occupied && s.readable && s.key == key && s.value == value)).length

/-- True when some occupied, readable slot holds exactly (key, value). -/
def ContainsReadable (b : HashTableBucketPage) (key value : Nat) : Bool :=
  b.slots.any (fun s => s.occupied && s.readable && s.key == key && s.value == value)

end HashTableBucketPage

/-! ## ExtendibleHTableBucketPage

Modelled from the spec: the class used by the orchestrator
(storage/page/extendible_htable_bucket_page.cpp) is not under src/; only
its callers are.  Section 3 gives a fixed-capacity array of (key, value)
slots with occupied and readable bits, and section 4.3 gives the
operations: Insert rejects an identical readable pair and otherwise
writes the first unoccupied slot marking it occupied and readable,
RemoveAt clears only the readable bit, IsFull is derived from the
bitmaps.  Init(bucket_max_size) sets the capacity; a freshly allocated
page is zero-filled by the buffer pool, so all bits start clear.
Lookup(key, out, cmp) and Size() are not named by the spec: Lookup is
modelled as the spec's bucket lookup restricted to its first match (the
call site receives a single out-parameter value), and Size() as the
number of readable entries (the nearest spec notion, NumReadable); no
theorem below depends on either choice. -/

structure ExtendibleHTableBucketPage where
  max_size : Nat
  slots : List Slot
deriving DecidableEq, Repr

namespace ExtendibleHTableBucketPage

/-- Modelled from the spec: Init(max_size) on a zero-filled page gives
max_size slots with all bits clear. -/
def Init (max_size : Nat) : ExtendibleHTableBucketPage :=
  { max_size := max_size,
    slots := List.replicate max_size { key := 0, value := 0, occupied := false, readable := false } }

/-- Modelled from the spec: IsFull() holds when no unoccupied slot exists. -/
def IsFull (b : ExtendibleHTableBucketPage) : Bool :=
  b.slots.all (fun s => s.occupied)

/-- Modelled from the spec: Insert, identical scan discipline as the
bucket-page design of section 4.3. -/
def Insert (b : ExtendibleHTableBucketPage) (key value : Nat) :
    Bool × ExtendibleHTableBucketPage :=
  match HashTableBucketPage.InsertAux key value b.slots with
  | some l => (true, { b with slots := l })
  | none => (false, b)

/-- Modelled from the spec: bucket lookup returns the values whose key
matches; the call site's single out-parameter receives the first one. -/
def Lookup (b : ExtendibleHTableBucketPage) (key : Nat) : Option Nat :=
  match b.slots.find? (fun s => s.occupied && s.readable && s.key == key) with
  | some s => some s.value
  | none => none

/-- Modelled from the spec: Size() as the number of readable entries. -/
def Size (b : ExtendibleHTableBucketPage) : Nat :=
  (b.slots.filter (fun s => s.readable)).length

/-- Modelled from the spec: KeyAt(i) reads array_[i].first; out-of-range
reads return the zero key (never exercised by any theorem below). -/
def KeyAt (b : ExtendibleHTableBucketPage) (bucket_idx : Nat) : Nat :=
  (b.slots.getD bucket_idx { key := 0, value := 0, occupied := false, readable := false }).key

/-- Modelled from the spec: ValueAt(i) reads array_[i].second. -/
def ValueAt (b : ExtendibleHTableBucketPage) (bucket_idx : Nat) : Nat :=
  (b.slots.getD bucket_idx { key := 0, value := 0, occupied := false, readable := false }).value

/-- Modelled from the spec: RemoveAt(i) clears only the readable bit. -/
def RemoveAt (b : ExtendibleHTableBucketPage) (bucket_idx : Nat) :
    ExtendibleHTableBucketPage :=
  { b with slots := b.slots.mapIdx (fun i s =>
      if i = bucket_idx ∧ s.occupied ∧ s.readable then { s with readable := false } else s) }

end ExtendibleHTableBucketPage

/-! ## Page guards

Embeds src/storage/page/page_guard.cpp.  A guard is a pair of possibly
null pointers (bpm_, page_) plus the dirty flag; page_ carries the page
id when non-null.  The observable effects on the buffer pool and on
latches are collected as an event trace.  ReadPageGuard and
WritePageGuard hold an inner BasicPageGuard; their two-argument
constructors are not under src/ (header only) and are modelled from the
spec as wrapping a freshly constructed basic guard over the same page. -/

inductive GuardEvent where
  | unpin (page_id : Nat) (is_dirty : Bool)
  | runlatch (page_id : Nat)
  | wunlatch (page_id : Nat)
deriving DecidableEq, Repr

structure BasicPageGuard where
  bpm : Bool
  page : Option Nat
  is_dirty : Bool
deriving DecidableEq, Repr

namespace BasicPageGuard

/-- Drop(): when both page_ and bpm_ are non-null, unpins the page with
the dirty flag and nulls all fields; otherwise does nothing. -/
def Drop (g : BasicPageGuard) : BasicPageGuard × List GuardEvent :=
  match g.page, g.bpm with
  | some pid, true =>
    ({ bpm := false, page := none, is_dirty := false }, [.unpin pid g.is_dirty])
  | _, _ => (g, [])

/-- Move assignment dst = std::move(src) for distinct guards: first drops
the destination's resources, then steals the source's fields and nulls
the source.  Returns (new destination, new source, events). -/
def MoveAssign (dst src : BasicPageGuard) :
    BasicPageGuard × BasicPageGuard × List GuardEvent :=
  let (_, events) := dst.Drop
  (src, { bpm := false, page := none, is_dirty := false }, events)

end BasicPageGuard

structure ReadPageGuard where
  guard : BasicPageGuard
deriving DecidableEq, Repr

namespace ReadPageGuard

/-- Drop(): RUnlatch when the inner page_ is non-null, then the inner
basic Drop. -/
def Drop (g : ReadPageGuard) : ReadPageGuard × List GuardEvent :=
  let latchEvents := match g.guard.page with
    | some pid => [GuardEvent.runlatch pid]
    | none => []
  let (b, dropEvents) := g.guard.Drop
  ({ guard := b }, latchEvents ++ dropEvents)

end ReadPageGuard

structure WritePageGuard where
  guard : BasicPageGuard
deriving DecidableEq, Repr

namespace WritePageGuard

/-- Drop(): WUnlatch when the inner page_ is non-null, then the inner
basic Drop. -/
def Drop (g : WritePageGuard) : WritePageGuard × List GuardEvent :=
  let latchEvents := match g.guard.page with
    | some pid => [GuardEvent.wunlatch pid]
    | none => []
  let (b, dropEvents) := g.guard.Drop
  ({ guard := b }, latchEvents ++ dropEvents)

end WritePageGuard

namespace BasicPageGuard

/-- UpgradeRead(): constructs ReadPageGuard(bpm_, page_) and then calls
this->Drop() on the original guard; the Drop emits an unpin of the very
page the new guard now owns.  Returns (read guard, emptied original,
events emitted during the upgrade). -/
def UpgradeRead (g : BasicPageGuard) :
    ReadPageGuard × BasicPageGuard × List GuardEvent :=
  let readPageGuard : ReadPageGuard :=
    { guard := { bpm := g.bpm, page := g.page, is_dirty := false } }
  let (g', events) := g.Drop
  (readPageGuard, g', events)

/-- UpgradeWrite(): same shape as UpgradeRead with a write guard. -/
def UpgradeWrite (g : BasicPageGuard) :
    WritePageGuard × BasicPageGuard × List GuardEvent :=
  let writePageGuard : WritePageGuard :=
    { guard := { bpm := g.bpm, page := g.page, is_dirty := false } }
  let (g', events) := g.Drop
  (writePageGuard, g', events)

end BasicPageGuard

/-- Number of unpin events for a given page id in a trace. -/
def CountUnpins (page_id : Nat) (events : List GuardEvent) : Nat :=
  (events.filter (fun e => match e with
    | .unpin pid _ => pid == page_id
    | _ => false)).length

/-! ## DiskExtendibleHashTable

Embeds src/container/disk/hash/disk_extendible_hash_table.cpp at the
int/int instantiation.  The immutable members of the class (the
comparator and the buffer pool pointer are external) are the two depth
bounds, the bucket capacity and the hash function; the mutable world is a
TableState: the header page (the constructor allocates it as page 0 and
calls Init(), whose default argument is HTABLE_HEADER_MAX_DEPTH = 9) and
two page tables for directory and bucket pages.  NewPageGuarded always
succeeds and hands out zero-filled pages with ids from next_page_id;
FetchPageBasic of an id absent from the corresponding table (for example
the INVALID_PAGE_ID sentinel -1, or a page of another kind reinterpreted
through AsMut at a point where it is actually read) is a buffer-pool
contract violation, modelled as a fault.  A C++ exception thrown from a
page accessor propagates out of the public operation with all page
mutations made so far still in place, so errors carry the current state. -/

structure DiskExtendibleHashTable where
  directory_max_depth : Nat
  bucket_max_size : Nat
  hashFn : Nat → Nat

structure TableState where
  header : ExtendibleHTableHeaderPage
  dirs : List (Int × ExtendibleHTableDirectoryPage)
  buckets : List (Int × ExtendibleHTableBucketPage)
  next_page_id : Int

namespace DiskExtendibleHashTable

/-- Hash(key): the hash function produces a uint32_t. -/
def Hash (ht : DiskExtendibleHashTable) (key : Nat) : Nat :=
  ht.hashFn key % 2 ^ 32

/-- Result type of the state-passing operations: an error carries the
exception text and the state as mutated up to the throw. -/
abbrev OpResult := Except (String × TableState) (Bool × TableState)

/-- GetValue(key, result, txn): resolves header, directory and bucket
with no check anywhere for the INVALID_PAGE_ID sentinel (the directory
page id read from an untouched header slot is -1, and the bucket page id
read from a zero-initialized directory slot is 0, the header's own page);
a single value is looked up and pushed into the result vector whether or
not it was found (the pushed value is indeterminate on a miss, modelled
as 0).  GetValue mutates nothing, so the plain Except form suffices. -/
def GetValue (ht : DiskExtendibleHashTable) (key : Nat) (s : TableState) :
    Except String (Bool × List Nat) :=
  let hash_value := ht.Hash key
  match s.header.HashToDirectoryIndex hash_value with
  | none => .error "shift count reaches the operand width: undefined behavior"
  | some dir_idx =>
  match s.header.GetDirectoryPageId dir_idx with
  | .error e => .error e
  | .ok dir_page_id =>
  match assocGet s.dirs dir_page_id with
  | none => .error "FetchPageBasic: no such directory page"
  | some directory =>
  let bucket_idx := directory.HashToBucketIndex hash_value
  match directory.GetBucketPageId bucket_idx with
  | .error e => .error e
  | .ok bucket_page_id =>
  match assocGet s.buckets bucket_page_id with
  | none => .error "FetchPageBasic: no such bucket page"
  | some bucket =>
  let r := bucket.Lookup key
  .ok (r.isSome, [r.getD 0])

/-- Loop of UpdateDirectoryMapping over the directory slots: for every i
below Size(), the slot receives the new bucket page id when
((i & mask) | (1u << (new_local_depth - 1))) ^ local_depth_mask == 0.
Size() is re-read by the C++ loop header but SetBucketPageId never
changes global_depth_, so iterating over the initial List.range Size() is
exact. -/
def UdmLoop (new_bucket_page_id : Int) (mask highBit local_depth_mask : Nat) :
    ExtendibleHTableDirectoryPage → List Nat →
    Except (String × ExtendibleHTableDirectoryPage) ExtendibleHTableDirectoryPage
  | d, [] => .ok d
  | d, i :: rest =>
    let masked_value := (i &&& mask) ||| highBit
    if masked_value ^^^ local_depth_mask = 0 then
      match d.SetBucketPageId i new_bucket_page_id with
      | .error e => .error (e, d)
      | .ok d' => UdmLoop new_bucket_page_id mask highBit local_depth_mask d' rest
    else
      UdmLoop new_bucket_page_id mask highBit local_depth_mask d rest

/-- UpdateDirectoryMapping(directory, new_bucket_idx, new_bucket_page_id,
new_local_depth, local_depth_mask): first writes the new bucket page id
at new_bucket_idx (bounds-checked against the current Size(), before any
global-depth increment), then doubles the directory when new_local_depth
exceeds global_depth_, sets the local depth at new_bucket_idx, and runs
the remapping loop.  Every call site passes new_local_depth at least 1,
so the mask subtraction never underflows. -/
def UpdateDirectoryMapping (directory : ExtendibleHTableDirectoryPage)
    (new_bucket_idx : Nat) (new_bucket_page_id : Int)
    (new_local_depth local_depth_mask : Nat) :
    Except (String × ExtendibleHTableDirectoryPage) ExtendibleHTableDirectoryPage :=
  match directory.SetBucketPageId new_bucket_idx new_bucket_page_id with
  | .error e => .error (e, directory)
  | .ok d1 =>
  let d2 := if new_local_depth > d1.GetGlobalDepth then d1.IncrGlobalDepth else d1
  match d2.SetLocalDepth new_bucket_idx new_local_depth with
  | .error e => .error (e, d2)
  | .ok d3 =>
  let mask := 2 ^ (new_local_depth - 1) - 1
  UdmLoop new_bucket_page_id mask (2 ^ (new_local_depth - 1)) local_depth_mask
    d3 (List.range d3.Size)

/-- Lines 151 to 154 of the orchestrator: scans the old bucket pushing
(KeyAt(i), ValueAt(i)) and calling RemoveAt(i) while i < Size(); the C++
loop re-reads Size() every iteration, and RemoveAt shrinks the readable
count this model uses for Size(), so the iteration count is bounded by
the initial slot count, which serves as fuel. -/
def CollectLoop : Nat → ExtendibleHTableBucketPage → Nat → List (Nat × Nat) →
    List (Nat × Nat) × ExtendibleHTableBucketPage
  | 0, b, _, acc => (acc, b)
  | fuel + 1, b, i, acc =>
    if i < b.Size then
      CollectLoop fuel (b.RemoveAt i) (i + 1) (acc ++ [(b.KeyAt i, b.ValueAt i)])
    else
      (acc, b)

/-- Lines 156 to 159 of the orchestrator: for every element of
all_key_values the loop body executes
insert_success = Insert(key, value, nullptr) with the OUTER key and
value, never the element (the adjacent source comment records exactly
this slip); insert_success keeps only the last iteration's result.  The
accumulator models the uninitialized bool, which is never returned
because all_key_values always contains at least the freshly pushed
(key, value). -/
def InsertLoop (recInsert : Nat → Nat → TableState → OpResult)
    (key value : Nat) : List (Nat × Nat) → Bool → TableState → OpResult
  | [], insert_success, s => .ok (insert_success, s)
  | _ :: rest, _, s =>
    match recInsert key value s with
    | .error e => .error e
    | .ok (b, s') => InsertLoop recInsert key value rest b s'

/-- InsertToNewBucket(directory, bucket_idx, key, value): the split path.
The directory argument is a pointer to the page at dir_page_id, so every
mutation through it is written back to the page table immediately.
With room to split (local depth below global depth, or equal with the
global depth below the directory depth ceiling) it allocates and
initializes a sibling bucket, increments the local depth at bucket_idx,
calls UpdateDirectoryMapping, clears the old bucket while saving its
entries, and re-runs the full Insert once per saved entry, always with
the incoming pair; otherwise it returns false with nothing changed.
recInsert is the recursive entry into Insert with one unit of fuel spent. -/
def InsertToNewBucket (recInsert : Nat → Nat → TableState → OpResult)
    (ht : DiskExtendibleHashTable) (dir_page_id : Int) (bucket_idx : Nat)
    (key value : Nat) (s : TableState) : OpResult :=
  match assocGet s.dirs dir_page_id with
  | none => .error ("FetchPageBasic: no such directory page", s)
  | some directory =>
  match directory.GetLocalDepth bucket_idx with
  | .error e => .error (e, s)
  | .ok local_depth =>
  let global_depth := directory.GetGlobalDepth
  match directory.GetBucketPageId bucket_idx with
  | .error e => .error (e, s)
  | .ok old_bucket_page_id =>
  if local_depth < global_depth ∨
      (local_depth = global_depth ∧ global_depth < ht.directory_max_depth) then
    let new_bucket_idx := directory.GetSplitImageIndex bucket_idx
    let new_bucket_page_id := s.next_page_id
    let s1 : TableState :=
      { s with next_page_id := s.next_page_id + 1,
               buckets := (new_bucket_page_id,
                 ExtendibleHTableBucketPage.Init ht.bucket_max_size) :: s.buckets }
    match directory.IncrLocalDepth bucket_idx with
    | .error e => .error (e, s1)
    | .ok d1 =>
    let s2 : TableState := { s1 with dirs := assocSet s1.dirs dir_page_id d1 }
    match UpdateDirectoryMapping d1 new_bucket_idx new_bucket_page_id
        (local_depth + 1) (bucket_idx &&& (2 ^ local_depth - 1)) with
    | .error (e, dErr) =>
      .error (e, { s2 with dirs := assocSet s2.dirs dir_page_id dErr })
    | .ok d2 =>
    let s3 : TableState := { s2 with dirs := assocSet s2.dirs dir_page_id d2 }
    match assocGet s3.buckets old_bucket_page_id with
    | none => .error ("AsMut: page is not a bucket page", s3)
    | some old_bucket =>
    let collected := CollectLoop (old_bucket.slots.length + 1) old_bucket 0 []
    let all_key_values := (key, value) :: collected.1
    let s4 : TableState :=
      { s3 with buckets := assocSet s3.buckets old_bucket_page_id collected.2 }
    match InsertLoop recInsert key value all_key_values false s4 with
    | .error e => .error e
    | .ok (insert_success, s5) =>
      if insert_success then .ok (true, s5) else .ok (false, s5)
  else
    .ok (false, s)

/-- InsertToNewDirectory(header, directory_idx, hash, key, value): header
pointer mutations write straight back into the state.  The bound check
uses a strict greater-than against MaxSize().  NewPageGuarded hands out a
zero-filled page which is used as a directory WITHOUT calling Init on it
(source lines 120 to 125), so its max_depth_ and global_depth_ are 0 and
both arrays are all zero; its bucket-index 0 therefore resolves to bucket
page id 0 and no bucket page is ever allocated before the split attempt. -/
def InsertToNewDirectory (recInsert : Nat → Nat → TableState → OpResult)
    (ht : DiskExtendibleHashTable) (directory_idx : Nat) (hash : Nat)
    (key value : Nat) (s : TableState) : OpResult :=
  if directory_idx > s.header.MaxSize then
    .ok (false, s)
  else
    let dir_page_id := s.next_page_id
    let dir_page : ExtendibleHTableDirectoryPage :=
      { max_depth := 0, global_depth := 0,
        local_depths := fun _ => 0, bucket_page_ids := fun _ => 0 }
    let s1 : TableState :=
      { s with next_page_id := s.next_page_id + 1,
               dirs := (dir_page_id, dir_page) :: s.dirs }
    match s1.header.SetDirectoryPageId directory_idx dir_page_id with
    | .error e => .error (e, s1)
    | .ok h' =>
    let s2 : TableState := { s1 with header := h' }
    let bucket_idx := dir_page.HashToBucketIndex hash
    InsertToNewBucket recInsert ht dir_page_id bucket_idx key value s2

/-- Insert(key, value, txn): resolves the directory (this operation DOES
check the -1 sentinel), then the bucket; when the bucket is not full it
calls the bucket-level Insert and DISCARDS its boolean, returning true
unconditionally (source lines 103 to 110); when full it delegates to
InsertToNewBucket.  The fuel bounds the split-and-retry recursion, which
the source leaves unbounded; every theorem below supplies fuel strictly
larger than its trace needs, so the fuel case is never the value
observed. -/
def Insert : Nat → DiskExtendibleHashTable → Nat → Nat → TableState → OpResult
  | 0, _, _, _, s => .error ("recursion fuel exhausted", s)
  | fuel + 1, ht, key, value, s =>
    let hash_value := ht.Hash key
    match s.header.HashToDirectoryIndex hash_value with
    | none => .error ("shift count reaches the operand width: undefined behavior", s)
    | some dir_idx =>
    match s.header.GetDirectoryPageId dir_idx with
    | .error e => .error (e, s)
    | .ok dir_page_id =>
    if dir_page_id = -1 then
      InsertToNewDirectory (Insert fuel ht) ht dir_idx hash_value key value s
    else
      match assocGet s.dirs dir_page_id with
      | none => .error ("FetchPageBasic: no such directory page", s)
      | some directory =>
      let bucket_idx := directory.HashToBucketIndex hash_value
      match directory.GetBucketPageId bucket_idx with
      | .error e => .error (e, s)
      | .ok bucket_page_id =>
      match assocGet s.buckets bucket_page_id with
      | none => .error ("AsMut: page is not a bucket page", s)
      | some bucket =>
      if !bucket.IsFull then
        let b' := (bucket.Insert key value).2
        .ok (true, { s with buckets := assocSet s.buckets bucket_page_id b' })
      else
        InsertToNewBucket (Insert fuel ht) ht dir_page_id bucket_idx key value s

/-- Remove(key, txn): resolves header, directory (again with no -1
check) and bucket, then calls the two-argument bucket-level
Remove(key, cmp_), whose body is not under src/; the theorem about this
operation therefore quantifies over the bucket-level remove behavior,
passed here as bucketRemove. -/
def Remove (bucketRemove : Nat → ExtendibleHTableBucketPage → Bool × ExtendibleHTableBucketPage)
    (ht : DiskExtendibleHashTable) (key : Nat) (s : TableState) : OpResult :=
  let hash_value := ht.Hash key
  match s.header.HashToDirectoryIndex hash_value with
  | none => .error ("shift count reaches the operand width: undefined behavior", s)
  | some dir_idx =>
  match s.header.GetDirectoryPageId dir_idx with
  | .error e => .error (e, s)
  | .ok dir_page_id =>
  match assocGet s.dirs dir_page_id with
  | none => .error ("FetchPageBasic: no such directory page", s)
  | some directory =>
  let bucket_idx := directory.HashToBucketIndex hash_value
  match directory.GetBucketPageId bucket_idx with
  | .error e => .error (e, s)
  | .ok bucket_page_id =>
  match assocGet s.buckets bucket_page_id with
  | none => .error ("AsMut: page is not a bucket page", s)
  | some bucket =>
  let r := bucketRemove key bucket
  .ok (r.1, { s with buckets := assocSet s.buckets bucket_page_id r.2 })

end DiskExtendibleHashTable

/-! ## Concrete fixtures

Small concrete tables, pages and guards used to evaluate the operations
at explicit inputs. -/

/-- Returns true on the error constructor. -/
def IsError {ε α : Type} : Except ε α → Bool
  | .error _ => true
  | .ok _ => false

/-- Projects, out of an operation result that ended in a throw, the pair
(global_depth, local_depths[0]) of the directory page at the given id in
the state the throw left behind. -/
def ErrStateDirDepths (r : DiskExtendibleHashTable.OpResult) (pid : Int) :
    Option (Nat × Nat) :=
  match r with
  | .error (_, s) =>
    match assocGet s.dirs pid with
    | some d => some (d.global_depth, d.local_depths 0)
    | none => none
  | .ok _ => none

/-- A table with directory_max_depth 1, bucket_max_size 2 and the
identity hash. -/
def ht1 : DiskExtendibleHashTable :=
  { directory_max_depth := 1, bucket_max_size := 2, hashFn := fun n => n }

/-- The state right after the constructor: header page 0 initialized with
the default HTABLE_HEADER_MAX_DEPTH = 9, no directory or bucket pages. -/
def sFresh : TableState :=
  { header := ExtendibleHTableHeaderPage.Init 9, dirs := [], buckets := [],
    next_page_id := 1 }

/-- A header page with max_depth 0. -/
def hdr0 : ExtendibleHTableHeaderPage :=
  { max_depth := 0, directory_page_ids := fun _ => -1 }

/-- Directory state with global_depth 1 where slot 1 carries local depth
1 (equal to the global depth, which the depth-bound invariant allows)
and slot 0 carries local depth 0. -/
def dBad : ExtendibleHTableDirectoryPage :=
  { max_depth := 2, global_depth := 1,
    local_depths := fun i => if i = 1 then 1 else 0,
    bucket_page_ids := fun _ => 0 }

/-- Directory state with global_depth 1 and both local depths 0. -/
def dGood : ExtendibleHTableDirectoryPage :=
  { max_depth := 2, global_depth := 1,
    local_depths := fun _ => 0, bucket_page_ids := fun _ => 0 }

/-- Bucket whose slot 0 is unoccupied (as a removal leaves it) and whose
slot 1 holds the readable pair (5, 7). -/
def c2bucket : HashTableBucketPage :=
  { slots := [
      { key := 0, value := 0, occupied := false, readable := false },
      { key := 5, value := 7, occupied := true, readable := true } ] }

/-- A basic page guard holding page 7. -/
def g7 : BasicPageGuard := { bpm := true, page := some 7, is_dirty := false }

/-- A basic page guard holding page 8. -/
def g8 : BasicPageGuard := { bpm := true, page := some 8, is_dirty := false }

/-- A full two-slot bucket holding (1, 1) and (2, 2). -/
def c9bucket : HashTableBucketPage :=
  { slots := [
      { key := 1, value := 1, occupied := true, readable := true },
      { key := 2, value := 2, occupied := true, readable := true } ] }

/-- The bucket c9bucket after Remove(1, 1): slot 0 is unreadable and
unoccupied. -/
def c9bucketRemoved : HashTableBucketPage :=
  { slots := [
      { key := 1, value := 1, occupied := false, readable := false },
      { key := 2, value := 2, occupied := true, readable := true } ] }

/-- A table whose header routes every hash to directory page 2. -/
def c5header : ExtendibleHTableHeaderPage :=
  { max_depth := 9, directory_page_ids := fun i => if i = 0 then 2 else -1 }

/-- A directory page (page 2) at global depth 0 pointing its single slot
at bucket page 3. -/
def c5dir : ExtendibleHTableDirectoryPage :=
  { max_depth := 0, global_depth := 0,
    local_depths := fun _ => 0, bucket_page_ids := fun _ => 3 }

/-- A full two-slot bucket for the exhaustion scenario. -/
def c5bucket : ExtendibleHTableBucketPage :=
  { max_size := 2, slots := [
      { key := 10, value := 10, occupied := true, readable := true },
      { key := 20, value := 20, occupied := true, readable := true } ] }

/-- A table with directory_max_depth 0: no splitting is ever permitted. -/
def c5ht : DiskExtendibleHashTable :=
  { directory_max_depth := 0, bucket_max_size := 2, hashFn := fun n => n }

/-- State for the exhaustion scenario: header page 0, directory page 2,
full bucket page 3. -/
def c5state : TableState :=
  { header := c5header, dirs := [(2, c5dir)], buckets := [(3, c5bucket)],
    next_page_id := 4 }

/-- An empty two-slot bucket used as the resolved bucket of the Remove
frame witness. -/
def c10bucket : ExtendibleHTableBucketPage := ExtendibleHTableBucketPage.Init 2

/-- State for the Remove frame witness: header page 0 routing to
directory page 2, whose single slot points at bucket page 3. -/
def c10state : TableState :=
  { header := c5header,
    dirs := [(2, c5dir)],
    buckets := [(3, c10bucket)], next_page_id := 4 }

/-- A concrete stand-in for the bucket-level Remove: reports false and
leaves the bucket unchanged. -/
def c10remove : Nat → ExtendibleHTableBucketPage → Bool × ExtendibleHTableBucketPage :=
  fun _ b => (false, b)

/-- The state the Remove frame witness ends in. -/
def c10stateAfter : TableState :=
  { c10state with buckets := assocSet c10state.buckets 3 c10bucket }

/-! ## Helper lemmas -/

theorem assocGet_assocSet_ne {α : Type} (l : List (Int × α)) (k q : Int) (v : α)
    (hne : q ≠ k) : assocGet (assocSet l k v) q = assocGet l q := by
  induction l with
  | nil => rfl
  | cons hd tl ih =>
    obtain ⟨hk, ha⟩ := hd
    by_cases h : hk = k
    · subst h
      simp only [assocSet, if_pos rfl, assocGet]
      rw [if_neg (fun h' => hne h'.symm), if_neg (fun h' => hne h'.symm)]
    · simp only [assocSet, if_neg h, assocGet]
      by_cases h2 : hk = q
      · rw [if_pos h2, if_pos h2]
      · rw [if_neg h2, if_neg h2]
        exact ih

/-! ## Claim theorems -/

open DiskExtendibleHashTable HashTableBucketPage

/-- C8: the claim states that for every 32-bit hash and every header
max_depth, including max_depth = 0, HashToDirectoryIndex(hash) equals
hash >> (32 - max_depth) and falls in [0, 2 ^ max_depth).  At
max_depth = 0 the source executes hash >> 32, a shift by the full operand
width, which C++ leaves undefined (on common hardware the count is taken
mod 32 and the hash comes back unchanged, outside [0, 1)); the embedding
yields no defined result there. -/
theorem hashToDirectoryIndex_undefined_at_depth_zero :
    hdr0.HashToDirectoryIndex 1 = none ∧
    hdr0.HashToDirectoryIndex 2882343476 = none := by
  constructor <;> rfl

/-- C6: the claim states that GetValue reports "not found" as a boolean
false when the directory slot for the key's hash is unallocated.  On a
fresh table GetValue reads the sentinel -1 from the header and, with no
check (the one Insert performs on line 90 is missing here), hands it to
FetchPageBasic, a fault rather than a false return. -/
theorem getvalue_unallocated_directory_faults :
    GetValue ht1 5 sFresh =
      .error "FetchPageBasic: no such directory page" := by
  rfl

/-- C2: the claim states that the bucket-level Insert rejects with false
whenever an identical (key, value) pair already occupies a readable
slot.  On a bucket whose slot 0 is unoccupied (as a removal leaves it)
while slot 1 holds the readable pair (5, 7), Insert(5, 7) writes slot 0
and returns true, leaving two readable occurrences of the pair: the scan
takes the first unoccupied slot before it ever compares against the
later duplicate.  At the table level the orchestrator additionally
discards the bucket's boolean and returns true whenever the bucket was
not full. -/
theorem bucket_insert_duplicate_not_suppressed :
    c2bucket.ContainsReadable 5 7 = true ∧
    (c2bucket.Insert 5 7).map (fun b => b.CountReadablePairs 5 7) = some 2 := by
  constructor <;> rfl

/-- C7: the claim states, among drop idempotence and move-assignment
safety, that UpgradeRead and UpgradeWrite transfer ownership with no
double release.  Dropping twice does unpin once, and a move-assignment
sequence does unpin once per originally held page; but UpgradeRead calls
Drop() on the original guard, which unpins the very page the upgraded
guard now owns, so the page is unpinned twice by the time the upgraded
guard is dropped (and likewise for UpgradeWrite). -/
theorem upgrade_read_double_unpin :
    CountUnpins 7 ((g7.Drop).2 ++ ((g7.Drop).1.Drop).2) = 1 ∧
    (CountUnpins 7 ((BasicPageGuard.MoveAssign g7 g8).2.2 ++
        (((BasicPageGuard.MoveAssign g7 g8).1).Drop).2) = 1 ∧
      CountUnpins 8 ((BasicPageGuard.MoveAssign g7 g8).2.2 ++
        (((BasicPageGuard.MoveAssign g7 g8).1).Drop).2) = 1) ∧
    CountUnpins 7 ((g7.UpgradeRead).2.2 ++ ((g7.UpgradeRead).1.Drop).2) = 2 ∧
    CountUnpins 7 ((g7.UpgradeWrite).2.2 ++ ((g7.UpgradeWrite).1.Drop).2) = 2 := by
  refine ⟨rfl, ⟨rfl, rfl⟩, rfl, rfl⟩

/-- C4, counterexample: the claim states that for EVERY valid slot i the
split image lies in the valid range and applying GetSplitImageIndex
twice returns i.  The directory dBad satisfies the depth-bound invariant
(every local depth at most the global depth), yet slot 1, whose local
depth equals the global depth 1, has split image 3, outside [0, 2), and
slot 0 fails the involution because its image's local depth differs from
its own: GetSplitImageIndex(GetSplitImageIndex(0)) = 3. -/
theorem getSplitImageIndex_claim_fails :
    (∀ i, i < dBad.Size → dBad.local_depths i ≤ dBad.global_depth) ∧
    ¬ (∀ i, i < dBad.Size →
        dBad.GetSplitImageIndex (dBad.GetSplitImageIndex i) = i ∧
        dBad.GetSplitImageIndex i < dBad.Size) := by
  decide

/-- C4, amended: for every valid slot i, the split image lies in the
valid range whenever local_depths[i] is strictly below global_depth, and
applying GetSplitImageIndex twice returns i whenever the image's local
depth agrees with the slot's own. -/
theorem getSplitImageIndex_range_involution :
    ∀ (d : ExtendibleHTableDirectoryPage) (i : Nat), i < d.Size →
      (d.local_depths i < d.global_depth → d.GetSplitImageIndex i < d.Size) ∧
      (d.local_depths (d.GetSplitImageIndex i) = d.local_depths i →
        d.GetSplitImageIndex (d.GetSplitImageIndex i) = i) := by
  intro d i hi
  constructor
  · intro hld
    have h2 : (2 : Nat) ^ d.local_depths i < 2 ^ d.global_depth :=
      Nat.pow_lt_pow_right (by norm_num) hld
    exact Nat.xor_lt_two_pow hi h2
  · intro heq
    unfold ExtendibleHTableDirectoryPage.GetSplitImageIndex at heq ⊢
    rw [heq, Nat.xor_assoc, Nat.xor_self, Nat.xor_zero]

/-- Witness for the amended C4 theorem at the concrete directory dGood
and slot 0. -/
theorem getSplitImageIndex_range_involution_witness :
    dGood.GetSplitImageIndex 0 < dGood.Size ∧
    dGood.GetSplitImageIndex (dGood.GetSplitImageIndex 0) = 0 := by
  have h := getSplitImageIndex_range_involution dGood 0 (by decide)
  exact ⟨h.1 (by decide), h.2 (by decide)⟩

/-- C3: the claim states that local_depths[i] ≤ global_depth holds for
every valid slot in every reachable directory state.  The very first
Insert on a fresh table (directory_max_depth 1 here) creates a directory
at global depth 0, increments the local depth of slot 0 to 1, and then
throws std::out_of_range from SetBucketPageId inside
UpdateDirectoryMapping, because the split image index 1 is checked
against Size() = 1 before the global depth is ever incremented; the
state left behind has local_depths[0] = 1 above global_depth = 0. -/
theorem insert_leaves_local_depth_above_global :
    ErrStateDirDepths (Insert 10 ht1 2 2 sFresh) 1 = some (0, 1) := by
  rfl

/-- C1: the claim states that inserted entries are retrievable and that
a bucket split rehashes and redistributes every entry of the original
bucket.  In fact the first Insert on a fresh table already throws (first
conjunct), and the redistribution loop of InsertToNewBucket re-inserts
the incoming (key, value) pair once per saved element, never the
elements themselves, so its outcome does not depend on which entries
were saved from the old bucket, only on how many (second conjunct). -/
theorem insert_discards_redistributed_entries :
    IsError (Insert 10 ht1 1 1 sFresh) = true ∧
    ∀ (recInsert : Nat → Nat → TableState → OpResult) (key value : Nat)
      (l l' : List (Nat × Nat)) (acc : Bool) (s : TableState),
      l.length = l'.length →
      InsertLoop recInsert key value l acc s =
        InsertLoop recInsert key value l' acc s := by
  constructor
  · rfl
  · intro recInsert key value l
    induction l with
    | nil =>
      intro l' acc s hlen
      cases l' with
      | nil => rfl
      | cons a as => simp at hlen
    | cons a as ih =>
      intro l' acc s hlen
      cases l' with
      | nil => simp at hlen
      | cons b bs =>
        simp only [List.length_cons, Nat.add_right_cancel_iff] at hlen
        simp only [InsertLoop]
        cases recInsert key value s with
        | error e => rfl
        | ok p => exact ih bs p.1 p.2 hlen

/-- Witness for the C1 theorem: two different redistributed-entry lists
of equal length drive the loop to the same result. -/
theorem insert_discards_redistributed_entries_witness :
    InsertLoop (Insert 3 ht1) 9 9 [(1, 1), (2, 2)] false sFresh =
      InsertLoop (Insert 3 ht1) 9 9 [(3, 3), (4, 4)] false sFresh :=
  insert_discards_redistributed_entries.2 (Insert 3 ht1) 9 9
    [(1, 1), (2, 2)] [(3, 3), (4, 4)] false sFresh rfl

/-- C10: whenever Remove returns normally it leaves the header page, the
directory pages and the page allocator untouched, and rewrites at most
the single resolved bucket page, whatever the bucket-level remove does;
in particular no merge happens and DecrGlobalDepth (whose body is an
unconditional throw, and which no code under src calls) is never
reached. -/
theorem remove_frame :
    ∀ (bucketRemove : Nat → ExtendibleHTableBucketPage →
        Bool × ExtendibleHTableBucketPage)
      (ht : DiskExtendibleHashTable) (key : Nat) (s : TableState)
      (r : Bool) (s' : TableState),
      Remove bucketRemove ht key s = .ok (r, s') →
      s'.header = s.header ∧ s'.dirs = s.dirs ∧
        s'.next_page_id = s.next_page_id ∧
        ∃ (bucket_page_id : Int) (b' : ExtendibleHTableBucketPage),
          s'.buckets = assocSet s.buckets bucket_page_id b' ∧
          ∀ q, q ≠ bucket_page_id →
            assocGet s'.buckets q = assocGet s.buckets q := by
  intro bucketRemove ht key s r s' h
  unfold DiskExtendibleHashTable.Remove at h
  dsimp only at h
  repeat (first
    | exact Except.noConfusion h
    | split at h)
  rw [Except.ok.injEq, Prod.mk.injEq] at h
  obtain ⟨rfl, rfl⟩ := h
  refine ⟨rfl, rfl, rfl, _, _, rfl, fun q hq => assocGet_assocSet_ne _ _ _ _ hq⟩

/-- Witness for the C10 theorem at a concrete one-bucket table. -/
theorem remove_frame_witness :
    c10stateAfter.header = c10state.header ∧
    c10stateAfter.dirs = c10state.dirs ∧
    c10stateAfter.next_page_id = c10state.next_page_id ∧
    ∃ (bucket_page_id : Int) (b' : ExtendibleHTableBucketPage),
      c10stateAfter.buckets = assocSet c10state.buckets bucket_page_id b' ∧
      ∀ q, q ≠ bucket_page_id →
        assocGet c10stateAfter.buckets q = assocGet c10state.buckets q :=
  remove_frame c10remove c5ht 1 c10state false c10stateAfter rfl

/-- C5: with directory_max_depth 0 and the resolved bucket full, Insert
returns false and leaves the state, in particular the bucket contents,
exactly as they were: the split guard in InsertToNewBucket rejects both
of its disjuncts at global depth 0 and depth ceiling 0 and the else
branch mutates nothing. -/
theorem insert_depth_ceiling_zero_returns_false :
    ∀ (fuel : Nat) (ht : DiskExtendibleHashTable) (key value : Nat)
      (s : TableState) (dir_idx : Nat) (dir_page_id : Int)
      (directory : ExtendibleHTableDirectoryPage)
      (bucket : ExtendibleHTableBucketPage),
      ht.directory_max_depth = 0 →
      s.header.HashToDirectoryIndex (ht.Hash key) = some dir_idx →
      s.header.GetDirectoryPageId dir_idx = .ok dir_page_id →
      dir_page_id ≠ -1 →
      assocGet s.dirs dir_page_id = some directory →
      directory.global_depth = 0 →
      assocGet s.buckets (directory.bucket_page_ids 0) = some bucket →
      bucket.IsFull = true →
      Insert (fuel + 1) ht key value s = .ok (false, s) := by
  intro fuel ht key value s dir_idx dir_page_id directory bucket
    hmd hidx hgetdir hne hdirs hgd hbuckets hfull
  have hbidx : directory.HashToBucketIndex (ht.Hash key) = 0 := by
    unfold ExtendibleHTableDirectoryPage.HashToBucketIndex
      ExtendibleHTableDirectoryPage.GetGlobalDepthMask
    rw [hgd]
    simp
  have hsize : directory.Size = 1 := by
    unfold ExtendibleHTableDirectoryPage.Size
    rw [hgd]
    rfl
  have hgb : directory.GetBucketPageId 0 = .ok (directory.bucket_page_ids 0) := by
    unfold ExtendibleHTableDirectoryPage.GetBucketPageId
    rw [hsize]
    simp
  have hgl : directory.GetLocalDepth 0 = .ok (directory.local_depths 0) := by
    unfold ExtendibleHTableDirectoryPage.GetLocalDepth
    rw [hsize]
    simp
  have hguard : ¬ (directory.local_depths 0 < directory.GetGlobalDepth ∨
      (directory.local_depths 0 = directory.GetGlobalDepth ∧
        directory.GetGlobalDepth < ht.directory_max_depth)) := by
    unfold ExtendibleHTableDirectoryPage.GetGlobalDepth
    rw [hgd, hmd]
    omega
  simp only [DiskExtendibleHashTable.Insert, hidx, hgetdir]
  rw [if_neg hne]
  simp only [hdirs, hbidx, hgb, hbuckets, hfull, Bool.not_true, if_false]
  unfold DiskExtendibleHashTable.InsertToNewBucket
  simp only [hdirs, hgl, hgb]
  rw [if_neg hguard]
  simp

/-- Witness for the C5 theorem at the concrete exhausted table. -/
theorem insert_depth_ceiling_zero_returns_false_witness :
    Insert 1 c5ht 1 1 c5state = .ok (false, c5state) :=
  insert_depth_ceiling_zero_returns_false 0 c5ht 1 1 c5state 0 2 c5dir
    c5bucket rfl rfl rfl (by decide) rfl rfl rfl rfl

/-- Scan-level core of the removal-and-reuse property: on a slot array
with every slot occupied, removing a pair frees its slot for reuse, and
a later insert of a pair that occurs in no readable slot succeeds and
lands readable. -/
theorem insertAux_after_removeAux :
    ∀ (l l' : List Slot) (k v k2 v2 : Nat),
      (∀ t ∈ l, t.occupied = true) →
      RemoveAux k v l = some l' →
      l.any (fun t => t.occupied && t.readable && t.key == k2 && t.value == v2) = false →
      ∃ l'', InsertAux k2 v2 l' = some l'' ∧
        l''.any (fun t => t.occupied && t.readable && t.key == k2 && t.value == v2) = true := by
  intro l
  induction l with
  | nil =>
    intro l' k v k2 v2 hocc hrem hnot
    exact Option.noConfusion hrem
  | cons t rest ih =>
    intro l' k v k2 v2 hocc hrem hnot
    simp only [List.any_cons, Bool.or_eq_false_iff] at hnot
    obtain ⟨hnt, hnrest⟩ := hnot
    have htocc : t.occupied = true := hocc t (List.mem_cons_self t rest)
    rw [RemoveAux] at hrem
    by_cases hc : (t.occupied && t.readable && t.key == k && t.value == v) = true
    · rw [if_pos hc] at hrem
      obtain rfl : ({ t with occupied := false, readable := false } :: rest) = l' :=
        Option.some.inj hrem
      refine ⟨{ key := k2, value := v2, occupied := true, readable := true } :: rest,
        ?_, ?_⟩
      · rw [InsertAux]
        simp
      · simp
    · rw [if_neg hc] at hrem
      obtain ⟨rest', hr', hmap⟩ := Option.map_eq_some'.mp hrem
      obtain rfl : t :: rest' = l' := hmap
      obtain ⟨l'', hins, hany⟩ :=
        ih rest' k v k2 v2 (fun u hu => hocc u (List.mem_cons_of_mem _ hu)) hr' hnrest
      by_cases hr : t.readable = true
      · have hdup : (t.key == k2 && t.value == v2) = false := by
          rw [htocc, hr] at hnt
          simpa using hnt
        refine ⟨t :: l'', ?_, ?_⟩
        · rw [InsertAux, if_pos (by simp [htocc, hr]), if_neg (by simp [hdup]), hins]
          rfl
        · simp [hany]
      · have hrf : t.readable = false := by
          cases hre : t.readable
          · rfl
          · exact absurd hre hr
        refine ⟨t :: l'', ?_, ?_⟩
        · rw [InsertAux, if_neg (by rw [htocc, hrf]; simp), if_neg (by rw [htocc]; simp),
            hins]
          rfl
        · simp [hany]

/-- C9: bucket-level Remove on a matching readable entry clears both the
readable and the occupied bit, so on a previously full bucket a
subsequent Insert of a fresh pair succeeds and the pair sits in a
readable slot: capacity is reclaimed, not tombstoned away. -/
theorem remove_then_insert_reclaims_capacity :
    ∀ (b b1 : HashTableBucketPage) (k v k2 v2 : Nat),
      b.IsFull = true →
      b.Remove k v = some b1 →
      b.ContainsReadable k2 v2 = false →
      ∃ b2, b1.Insert k2 v2 = some b2 ∧ b2.ContainsReadable k2 v2 = true := by
  intro b b1 k v k2 v2 hfull hrem hnot
  have hocc : ∀ t ∈ b.slots, t.occupied = true := by
    intro t ht
    exact List.all_eq_true.mp hfull t ht
  obtain ⟨l', hr', hmk⟩ := Option.map_eq_some'.mp hrem
  obtain ⟨l'', hins, hany⟩ :=
    insertAux_after_removeAux b.slots l' k v k2 v2 hocc hr' hnot
  refine ⟨{ slots := l'' }, ?_, hany⟩
  rw [← hmk]
  unfold HashTableBucketPage.Insert
  rw [hins]
  rfl

/-- Witness for the C9 theorem: the full bucket holding (1, 1) and
(2, 2), after Remove(1, 1), accepts (3, 3) into a readable slot. -/
theorem remove_then_insert_reclaims_capacity_witness :
    ∃ b2, c9bucketRemoved.Insert 3 3 = some b2 ∧
      b2.ContainsReadable 3 3 = true :=
  remove_then_insert_reclaims_capacity c9bucket c9bucketRemoved 1 1 3 3
    (by decide) (by decide) (by decide)

end Bustub
